import Mathlib

/-!
Shallow embedding of `flexget/plugins/daemon/scheduler.py`: the schedule
schema fragment, the job-identity scheme, the reconciliation routine
`setup_jobs`, the timezone fallback in `setup_scheduler`, and the schedule
CRUD handlers (`schedules`, `get_schedule`, `update_schedule`,
`delete_schedule`).

Python dicts are modelled as association lists of `String × JValue`; the
per-process object identity `id(obj)` is modelled by giving every config
object an explicit address field `addr : Nat`.
-/

set_option autoImplicit false

namespace Scheduler

/-- JSON-style values, as produced by `request.json` / stored in `manager.config`. -/
inductive JValue where
  | null
  | bool (b : Bool)
  | num (n : Int)
  | str (s : String)
  | arr (xs : List JValue)
  | obj (fields : List (String × JValue))

/-- `k in d` on a Python dict modelled as an association list. -/
def hasKey (fields : List (String × JValue)) (k : String) : Bool :=
  fields.any (fun p => p.fst == k)

/-- `d[k]` lookup returning the first binding, `none` when the key is absent. -/
def lookupKey (fields : List (String × JValue)) (k : String) : Option JValue :=
  (fields.find? (fun p => p.fst == k)).map Prod.snd

/-- `d[k] = v`: overwrite the binding for `k` (dict keys are unique; we drop
any old binding and append the new one, preserving the other keys). -/
def setKey (fields : List (String × JValue)) (k : String) (v : JValue) :
    List (String × JValue) :=
  (fields.filter (fun p => p.fst != k)) ++ [(k, v)]

/-- `del d[k]` (also a no-op form used for `if 'id' in s: del s['id']`). -/
def delKey (fields : List (String × JValue)) (k : String) : List (String × JValue) :=
  fields.filter (fun p => p.fst != k)

/-! ### Schema (`main_schema` from the source)

The jsonschema keywords actually exercised by the claims are embedded:
`required`, `additionalProperties: false`, property type checks, and
`oneOf` (exactly one subschema validates). -/

/-- jsonschema `oneOf`: exactly one of the subschema outcomes holds. -/
def oneOfOk (subs : List Bool) : Bool :=
  subs.countP id == 1

/-- The `'oneOf': [{'required': ['schedule']}, {'required': ['interval']}]`
check on a schedule item: exactly one trigger kind present. -/
def triggerOneOf (fields : List (String × JValue)) : Bool :=
  oneOfOk [hasKey fields "schedule", hasKey fields "interval"]

/-- `tasks` property: `{'type': ['array', 'string'], 'items': {'type': 'string'}}`. -/
def validTasks : JValue → Bool
  | JValue.str _ => true
  | JValue.arr xs => xs.all (fun v => match v with | JValue.str _ => true | _ => false)
  | _ => false

def isNum : JValue → Bool
  | JValue.num _ => true
  | _ => false

def isIntOrStr : JValue → Bool
  | JValue.num _ => true
  | JValue.str _ => true
  | _ => false

def UNITS : List String := ["minutes", "hours", "days", "weeks"]

/-- `interval_schema`: object with at most the four unit keys, numeric values,
`oneOf` requiring exactly one unit, no additional properties. -/
def validInterval : JValue → Bool
  | JValue.obj fs =>
      fs.all (fun p => p.fst ∈ UNITS && isNum p.snd) &&
      oneOfOk (UNITS.map (hasKey fs))
  | _ => false

def CRON_KEYS : List String :=
  ["year", "month", "day", "week", "day_of_week", "hour", "minute"]

/-- `cron_schema` structural part: the seven cron keys, integer-or-string
values, no additional properties.  The `format: cron_schedule` checker
delegates to apscheduler's `CronTrigger` constructor (external code, not
modelled). -/
def validCron : JValue → Bool
  | JValue.obj fs => fs.all (fun p => p.fst ∈ CRON_KEYS && isIntOrStr p.snd)
  | _ => false

/-- Validation of one item of the `schedules` array against `main_schema`'s
item schema: `required: ['tasks']`, the three property schemas,
`additionalProperties: false`, and the exactly-one-trigger `oneOf`. -/
def itemValid : JValue → Bool
  | JValue.obj fs =>
      hasKey fs "tasks" &&
      fs.all (fun p => p.fst ∈ (["tasks", "interval", "schedule"] : List String)) &&
      (match lookupKey fs "tasks" with | some v => validTasks v | none => true) &&
      (match lookupKey fs "interval" with | some v => validInterval v | none => true) &&
      (match lookupKey fs "schedule" with | some v => validCron v | none => true) &&
      triggerOneOf fs
  | _ => true

/-! ### Config objects and job identity -/

/-- A schedule-config object as it lives in `manager.config['schedules']`:
its JSON content plus its per-process address (`id(obj)` in Python). -/
structure ConfigObj where
  addr : Nat
  content : JValue

/-- The identity the reconciler `setup_jobs` actually assigns to a config:
`jid = unicode(id(job_config))` — the object's address rendered as a string. -/
def reconcilerJobId (c : ConfigObj) : String :=
  toString c.addr

/-- Key lookup on a JSON value (`job_config['interval']` etc.; only dicts
have keys). -/
def JValue.getKey : JValue → String → Option JValue
  | JValue.obj fs, k => lookupKey fs k
  | _, _ => none

/-- The fields of a dict value (schedule configs are dicts). -/
def JValue.fieldsOf : JValue → List (String × JValue)
  | JValue.obj fs => fs
  | _ => []

/-! ### Scheduled-job runtime (the slice of apscheduler the module drives)

`SchedState.jobs` is the content of the persistent job store
(`SQLAlchemyJobStore`): `scheduler.shutdown()` stops the timer but does not
delete persisted job records; only `remove_job` does. -/

inductive TriggerDescriptor where
  | interval (args : JValue)
  | cron (args : JValue)

structure Job where
  id : String
  name : String
  trigger : TriggerDescriptor
  nextRunTime : Option Int

structure SchedState where
  running : Bool
  jobs : List Job

/-- The three shapes of `manager.config['schedules']`: key absent, the
disabled sentinel `false`, or a list of config objects. -/
inductive SchedulesEntry where
  | absent
  | disabled
  | configs (xs : List ConfigObj)

/-- The default substituted by
`manager.config.get('schedules', [{'tasks': ['*'], 'interval': {'hours': 1}}])`. -/
def defaultScheduleContent : JValue :=
  JValue.obj [("tasks", JValue.arr [JValue.str "*"]),
              ("interval", JValue.obj [("hours", JValue.num 1)])]

/-- `manager.config.get('schedules', [default])`: `none` models the `False`
sentinel, otherwise the config list.  The default literal is a fresh dict,
so it carries a fresh address `defaultAddr`. -/
def configValue (entry : SchedulesEntry) (defaultAddr : Nat) : Option (List ConfigObj) :=
  match entry with
  | SchedulesEntry.absent => some [⟨defaultAddr, defaultScheduleContent⟩]
  | SchedulesEntry.disabled => none
  | SchedulesEntry.configs xs => some xs

/-- `tasks = job_config['tasks']; if not isinstance(tasks, list): tasks = [tasks]`
(schema-valid task entries are strings). -/
def tasksOf (content : JValue) : List String :=
  match content.getKey "tasks" with
  | some (JValue.arr xs) =>
      xs.filterMap (fun v => match v with | JValue.str s => some s | _ => none)
  | some (JValue.str s) => [s]
  | _ => []

/-- `if 'interval' in job_config: trigger = 'interval', job_config['interval']
else: trigger = 'cron', job_config['schedule']`. -/
def triggerOf (content : JValue) : TriggerDescriptor :=
  match content.getKey "interval" with
  | some args => TriggerDescriptor.interval args
  | none => TriggerDescriptor.cron ((content.getKey "schedule").getD (JValue.obj []))

/-- `scheduler.add_job(run_job, args=(tasks,), id=jid, name=name, trigger=...)`:
the new job record.  The store computes the first fire time from the trigger;
that computation is apscheduler's and is abstracted as `nextFire`. -/
def mkJob (nextFire : TriggerDescriptor → Option Int) (c : ConfigObj) : Job :=
  { id := reconcilerJobId c
    name := String.intercalate "," (tasksOf c.content)
    trigger := triggerOf c.content
    nextRunTime := nextFire (triggerOf c.content) }

structure SetupResult where
  state : SchedState
  addedIds : List String
  removedIds : List String

/-- `setup_jobs`: the reconciliation routine run on `manager.config_updated`
(the `manager.is_daemon` guard is taken as passed).  Faithful shape:

* `config = manager.config.get('schedules', [default])`;
* `if not config:` (the `False` sentinel, or an empty list) — shut the
  scheduler down if running and return, touching no job records;
* otherwise diff: add each config whose `unicode(id(config))` is not among
  the existing job ids, then remove every existing id not configured;
* finally `if not scheduler.running: scheduler.start()`. -/
def setup_jobs (nextFire : TriggerDescriptor → Option Int) (defaultAddr : Nat)
    (entry : SchedulesEntry) (st : SchedState) : SetupResult :=
  match configValue entry defaultAddr with
  | none =>
      { state := ⟨false, st.jobs⟩, addedIds := [], removedIds := [] }
  | some cs =>
      if cs.isEmpty then
        { state := ⟨false, st.jobs⟩, addedIds := [], removedIds := [] }
      else
        let existing := st.jobs.map Job.id
        let configured := cs.map reconcilerJobId
        let toAdd := cs.filter (fun c => ! decide (reconcilerJobId c ∈ existing))
        let jobsAfterAdd := st.jobs ++ toAdd.map (mkJob nextFire)
        let removed := existing.filter (fun i => ! decide (i ∈ configured))
        let jobsAfterRemove := jobsAfterAdd.filter (fun j => ! decide (j.id ∈ removed))
        { state := ⟨true, jobsAfterRemove⟩
          addedIds := toAdd.map reconcilerJobId
          removedIds := removed }

/-! ### Timezone resolution (`setup_scheduler`) -/

/-- Outcome of `tzlocal.get_localzone()`. -/
inductive TzResult where
  | ok (zoneName : String)
  | unknownTZError
  | structFailure (msg : String)
deriving DecidableEq

structure SchedulerInit where
  timezone : String
  noteEmitted : Bool
  constructed : Bool
deriving DecidableEq

/-- The timezone block of `setup_scheduler`: `get_localzone`, the `'local'`
placeholder check, the `pytz.UnknownTimeZoneError` and `struct.error`
handlers, the UTC fallback with its log note, and the unconditional
`BackgroundScheduler(...)` construction. -/
def setup_scheduler_tz (r : TzResult) : SchedulerInit :=
  let tz : Option String :=
    match r with
    | TzResult.ok z => if z == "local" then none else some z
    | TzResult.unknownTZError => none
    | TzResult.structFailure _ => none
  let warnedHidden : Bool :=
    match r with
    | TzResult.structFailure _ => true
    | _ => false
  match tz with
  | some z => ⟨z, warnedHidden, true⟩
  | none => ⟨"UTC", true, true⟩

/-! ### Schedule CRUD handlers

A Flask handler either returns a body with a status code (`jsonify(...)`
alone is a 200, `jsonify(...), n` is status `n`), or lets an exception
escape; `manager.save_config()` failing is modelled by `persistOk = false`,
in which case the handler ends in `Response.exception` — crucially with
whatever in-memory state it had already built. -/

inductive Response where
  | json (body : JValue) (status : Nat)
  | exception

def Response.statusCode : Response → Option Nat
  | Response.json _ s => some s
  | Response.exception => none

/-- `_schedule_by_id`: first config whose `id(schedule) == schedule_id`,
returned as a copy with `'id'` set. -/
def schedule_by_id (xs : List ConfigObj) (sid : Nat) : Option JValue :=
  match xs.find? (fun c => c.addr == sid) with
  | some c => some (JValue.obj (setKey c.content.fieldsOf "id" (JValue.num (Int.ofNat sid))))
  | none => none

/-- `GET /schedules/`: empty list when the key is absent or falsy, otherwise
each config copied and annotated with its `id`.  (The handler never consults
the scheduler, so no `next_run_time` appears.) -/
def schedules_get (entry : SchedulesEntry) : Response :=
  match entry with
  | SchedulesEntry.configs cs =>
      if cs.isEmpty then Response.json (JValue.obj [("schedules", JValue.arr [])]) 200
      else
        Response.json
          (JValue.obj [("schedules", JValue.arr (cs.map (fun c =>
            JValue.obj (setKey c.content.fieldsOf "id" (JValue.num (Int.ofNat c.addr))))))])
          200
  | _ => Response.json (JValue.obj [("schedules", JValue.arr [])]) 200

/-- `POST /schedules/` after the falsy reset: append `data['schedule']` (a
fresh object, address `freshAddr`); re-locate it by address; persist;
signal `config_changed`; return the created view. -/
def schedules_post_list (persistOk : Bool) (freshAddr : Nat) (xs : List ConfigObj)
    (newContent : JValue) : SchedulesEntry × Response :=
  let xs2 := xs ++ [⟨freshAddr, newContent⟩]
  match schedule_by_id xs2 freshAddr with
  | none =>
      (SchedulesEntry.configs xs2,
       Response.json (JValue.obj [("error", JValue.str "schedule went missing after add")]) 500)
  | some sched =>
      if persistOk then
        (SchedulesEntry.configs xs2, Response.json (JValue.obj [("schedule", sched)]) 200)
      else
        (SchedulesEntry.configs xs2, Response.exception)

/-- `POST /schedules/`: no schema validation (the handler's TODO); a missing
or falsy `schedules` entry is reset to `[]` — creating a schedule while
scheduling is disabled re-enables it — then the append path runs. -/
def schedules_post (persistOk : Bool) (freshAddr : Nat) (entry : SchedulesEntry)
    (newContent : JValue) : SchedulesEntry × Response :=
  schedules_post_list persistOk freshAddr
    (match entry with
     | SchedulesEntry.configs cs => cs
     | _ => [])
    newContent

/-- `GET /schedules/<id>/`: locate the config, then
`scheduler.get_job(unicode(schedule_id))`; when a live job exists its
`next_run_time` is copied onto the returned view. -/
def get_schedule (st : SchedState) (xs : List ConfigObj) (sid : Nat) : Response :=
  match schedule_by_id xs sid with
  | none => Response.json (JValue.obj [("error", JValue.str "invalid schedule id")]) 400
  | some sched =>
      match st.jobs.find? (fun j => j.id == toString sid) with
      | some job =>
          Response.json
            (JValue.obj [("schedule",
              JValue.obj (setKey sched.fieldsOf "next_run_time"
                (match job.nextRunTime with
                 | some t => JValue.num t
                 | none => JValue.null)))])
            200
      | none => Response.json (JValue.obj [("schedule", sched)]) 200

/-- `dict.update(other)`: every binding of `other` written over `old`. -/
def dictUpdate (old other : List (String × JValue)) : List (String × JValue) :=
  other.foldl (fun acc p => setKey acc p.fst p.snd) old

/-- Replace the first config whose address is `sid` with `f` of it (the
Python loop mutates the dict in place, so the address is preserved). -/
def updateFirst (sid : Nat) (f : ConfigObj → ConfigObj) :
    List ConfigObj → Option (List ConfigObj)
  | [] => none
  | c :: cs =>
      if c.addr = sid then some (f c :: cs)
      else (updateFirst sid f cs).map (fun ys => c :: ys)

/-- The in-place mutation `update_schedule` applies to the located dict:
drop any `'id'` key from the payload, then `POST` clears the dict first
(full replace) while `PATCH` merges; the dict object — hence its address —
is preserved. -/
def applyUpdate (isPost : Bool) (newContent : JValue) (c : ConfigObj) : ConfigObj :=
  ⟨c.addr,
   JValue.obj
     (if isPost then delKey newContent.fieldsOf "id"
      else dictUpdate c.content.fieldsOf (delKey newContent.fieldsOf "id"))⟩

/-- `POST`/`PATCH /schedules/<id>/`: locate by address; apply the in-place
mutation; re-locate; persist; signal; return.  Not found is a 400. -/
def update_schedule (isPost persistOk : Bool) (xs : List ConfigObj) (sid : Nat)
    (newContent : JValue) : List ConfigObj × Response :=
  match updateFirst sid (applyUpdate isPost newContent) xs with
  | none => (xs, Response.json (JValue.obj [("error", JValue.str "Invalid id")]) 400)
  | some xs2 =>
      match schedule_by_id xs2 sid with
      | none =>
          (xs2,
           Response.json (JValue.obj [("error", JValue.str "schedule went missing after update")]) 500)
      | some sched =>
          if persistOk then (xs2, Response.json (JValue.obj [("schedule", sched)]) 200)
          else (xs2, Response.exception)

/-- Remove the first config whose address is `sid`. -/
def deleteFirst (sid : Nat) : List ConfigObj → Option (List ConfigObj)
  | [] => none
  | c :: cs =>
      if c.addr = sid then some cs
      else (deleteFirst sid cs).map (fun ys => c :: ys)

/-- `DELETE /schedules/<id>/`: locate by address, delete, persist, signal;
the success return is `jsonify({'detail': 'deleted schedule'}), 400` — the
same 400 status as the not-found error return. -/
def delete_schedule (persistOk : Bool) (xs : List ConfigObj) (sid : Nat) :
    List ConfigObj × Response :=
  match deleteFirst sid xs with
  | some xs2 =>
      if persistOk then
        (xs2, Response.json (JValue.obj [("detail", JValue.str "deleted schedule")]) 400)
      else
        (xs2, Response.exception)
  | none => (xs, Response.json (JValue.obj [("error", JValue.str "invalid schedule id")]) 400)

/-- A concrete schedule config used to exercise the List/Get handlers. -/
def sampleContent : JValue :=
  JValue.obj [("tasks", JValue.arr [JValue.str "tv"]),
              ("interval", JValue.obj [("hours", JValue.num 2)])]

/-- The live job the runtime would hold for `sampleContent` at address 7. -/
def sampleJob : Job :=
  { id := reconcilerJobId ⟨7, sampleContent⟩
    name := "tv"
    trigger := triggerOf sampleContent
    nextRunTime := some 42 }

/-! ## Theorems -/

/-- The handler's post-append lookup always finds the appended object. -/
lemma find_append_self (xs : List ConfigObj) (a : Nat) (v : JValue) :
    ((xs ++ [(⟨a, v⟩ : ConfigObj)]).find? (fun c => c.addr == a)).isSome := by
  induction xs with
  | nil => simp [List.find?]
  | cons c cs ih =>
      simp only [List.cons_append, List.find?]
      cases c.addr == a <;> simp [ih]

lemma schedule_by_id_isSome_of_find (xs : List ConfigObj) (sid : Nat)
    (h : ((xs.find? (fun c => c.addr == sid)).isSome)) :
    (schedule_by_id xs sid).isSome := by
  unfold schedule_by_id
  cases hf : xs.find? (fun c => c.addr == sid) with
  | none => rw [hf] at h; simp at h
  | some c => rfl

lemma schedule_by_id_append_self (xs : List ConfigObj) (a : Nat) (v : JValue) :
    (schedule_by_id (xs ++ [⟨a, v⟩]) a).isSome :=
  schedule_by_id_isSome_of_find _ _ (find_append_self xs a v)

/-- After `updateFirst` succeeds with an address-preserving mutation, the
re-location by the same address succeeds. -/
lemma find_updateFirst (sid : Nat) (f : ConfigObj → ConfigObj)
    (hf : ∀ c, (f c).addr = c.addr) :
    ∀ (xs ys : List ConfigObj), updateFirst sid f xs = some ys →
      ((ys.find? (fun c => c.addr == sid)).isSome) := by
  intro xs
  induction xs with
  | nil => intro ys h; simp [updateFirst] at h
  | cons c cs ih =>
      intro ys h
      by_cases hc : c.addr = sid
      · rw [updateFirst, if_pos hc] at h
        cases h
        simp [List.find?, hf c, hc]
      · rw [updateFirst, if_neg hc] at h
        cases hz : updateFirst sid f cs with
        | none => rw [hz] at h; simp at h
        | some zs =>
            rw [hz] at h
            cases h
            have hb : (c.addr == sid) = false := by
              simp [hc]
            have hstep : ((c :: zs).find? (fun x => x.addr == sid))
                = zs.find? (fun x => x.addr == sid) := by
              rw [List.find?_cons, hb]
            rw [hstep]
            exact ih zs hz

/-- What the create path does once the effective list `xs` is fixed: the
in-memory list always becomes `xs ++ [new]`, and a persistence failure
escapes as an exception (after the mutation, which is kept). -/
lemma schedules_post_list_spec (pOk : Bool) (a : Nat) (xs : List ConfigObj) (v : JValue) :
    (schedules_post_list pOk a xs v).fst = SchedulesEntry.configs (xs ++ [⟨a, v⟩]) ∧
    (pOk = false → (schedules_post_list pOk a xs v).snd = Response.exception) := by
  obtain ⟨sched, h⟩ := Option.isSome_iff_exists.mp (schedule_by_id_append_self xs a v)
  simp only [schedules_post_list]
  rw [h]
  cases pOk <;> simp

/-- Claim C4, counterexample: a Create whose persistence step fails leaves
the appended config in the in-memory list — the state is not restored to
its pre-operation value (the empty list) before the error escapes. -/
theorem C4_counterexample :
    (schedules_post false 3 (SchedulesEntry.configs []) (JValue.obj [])).snd
      = Response.exception ∧
    (schedules_post false 3 (SchedulesEntry.configs []) (JValue.obj [])).fst
      = SchedulesEntry.configs [⟨3, JValue.obj []⟩] ∧
    SchedulesEntry.configs [(⟨3, JValue.obj []⟩ : ConfigObj)] ≠ SchedulesEntry.configs [] := by
  refine ⟨rfl, rfl, ?_⟩
  intro heq
  injection heq with h2
  exact absurd h2 (List.cons_ne_nil _ _)

/-- Claim C4, amended: none of the mutating operations rolls back on
persistence failure.  For Create, Replace/Update and Delete alike, the
in-memory schedule list after a failed persist is exactly the list a
successful persist would have left, and the failure escapes the handler as
an unhandled exception rather than a rolled-back error return. -/
theorem C4_amended :
    (∀ (a : Nat) (entry : SchedulesEntry) (v : JValue),
        (schedules_post false a entry v).fst = (schedules_post true a entry v).fst ∧
        (schedules_post false a entry v).snd = Response.exception) ∧
    (∀ (isPost : Bool) (xs : List ConfigObj) (sid : Nat) (v : JValue),
        (update_schedule isPost false xs sid v).fst
          = (update_schedule isPost true xs sid v).fst ∧
        ((updateFirst sid (applyUpdate isPost v) xs).isSome = true →
          (update_schedule isPost false xs sid v).snd = Response.exception)) ∧
    (∀ (xs : List ConfigObj) (sid : Nat),
        (delete_schedule false xs sid).fst = (delete_schedule true xs sid).fst ∧
        ((deleteFirst sid xs).isSome = true →
          (delete_schedule false xs sid).snd = Response.exception)) := by
  refine ⟨?_, ?_, ?_⟩
  · intro a entry v
    unfold schedules_post
    refine ⟨?_, (schedules_post_list_spec false a _ v).2 rfl⟩
    rw [(schedules_post_list_spec false a _ v).1, (schedules_post_list_spec true a _ v).1]
  · intro isPost xs sid v
    cases h : updateFirst sid (applyUpdate isPost v) xs with
    | none =>
        unfold update_schedule
        rw [h]
        exact ⟨rfl, by intro hc; simp at hc⟩
    | some ys =>
        have hs : (schedule_by_id ys sid).isSome :=
          schedule_by_id_isSome_of_find _ _
            (find_updateFirst sid (applyUpdate isPost v) (fun _ => rfl) xs ys h)
        obtain ⟨sched, h2⟩ := Option.isSome_iff_exists.mp hs
        unfold update_schedule
        rw [h]
        dsimp only
        rw [h2]
        exact ⟨rfl, fun _ => rfl⟩
  · intro xs sid
    cases h : deleteFirst sid xs with
    | none =>
        unfold delete_schedule
        rw [h]
        exact ⟨rfl, by intro hc; simp at hc⟩
    | some ys =>
        unfold delete_schedule
        rw [h]
        exact ⟨rfl, fun _ => rfl⟩

/-- Claim C5, code evaluated at the failing input: the empty config `{}` is
schema-invalid (no `tasks`, neither trigger kind), yet Create appends it to
the schedule list, persists, and answers 200 with the created view — the
handler performs no validation at all. -/
theorem C5_create_skips_validation :
    itemValid (JValue.obj []) = false ∧
    (schedules_post true 3 (SchedulesEntry.configs []) (JValue.obj [])).fst
      = SchedulesEntry.configs [⟨3, JValue.obj []⟩] ∧
    (schedules_post true 3 (SchedulesEntry.configs []) (JValue.obj [])).snd
      = Response.json (JValue.obj [("schedule", JValue.obj [("id", JValue.num 3)])]) 200 :=
  ⟨rfl, rfl, rfl⟩

/-- Claim C1, counterexample: two config objects with identical content but
different addresses receive different identifiers from the reconciler's
identity scheme — so the identity the reconciler uses does not depend only
on the config's content, refuting the content-hash (SHA-1) characterization. -/
theorem C1_counterexample :
    (⟨0, JValue.obj []⟩ : ConfigObj).content = (⟨1, JValue.obj []⟩ : ConfigObj).content ∧
    reconcilerJobId ⟨0, JValue.obj []⟩ ≠ reconcilerJobId ⟨1, JValue.obj []⟩ :=
  ⟨rfl, by decide⟩

/-- Claim C1, amended: the JobIdentity used by the reconciler `setup_jobs`
is `unicode(id(job_config))`, the ephemeral per-process object identity: it
is a function of the object's address alone, and it is not a function of the
config's content (the SHA-1 content-hash `job_id` function in the module is
not what the reconciler uses). -/
theorem C1_amended :
    (∀ c c' : ConfigObj, c.addr = c'.addr → reconcilerJobId c = reconcilerJobId c') ∧
    ¬ (∀ c c' : ConfigObj, c.content = c'.content → reconcilerJobId c = reconcilerJobId c') := by
  constructor
  · intro c c' h
    simp [reconcilerJobId, h]
  · intro h
    have h2 := h ⟨0, JValue.obj []⟩ ⟨1, JValue.obj []⟩ rfl
    exact absurd h2 (by decide)

/-- Claim C2, counterexample: reconciling the disabled sentinel against a
non-empty observed job set removes nothing — the observed job (id `"7"`)
stays in the persistent job store and `removedIds` is empty, while the claim
asserts `toRemove` equals the set of all observed job ids. -/
theorem C2_counterexample :
    (setup_jobs (fun _ => none) 0 SchedulesEntry.disabled
        ⟨true, [⟨"7", "tv", TriggerDescriptor.interval (JValue.obj []), some 5⟩]⟩).removedIds
      = [] ∧
    (SchedState.jobs ⟨true, [⟨"7", "tv", TriggerDescriptor.interval (JValue.obj []), some 5⟩]⟩).map
        Job.id = ["7"] ∧
    ([] : List String) ≠ ["7"] ∧
    (setup_jobs (fun _ => none) 0 SchedulesEntry.disabled
        ⟨true, [⟨"7", "tv", TriggerDescriptor.interval (JValue.obj []), some 5⟩]⟩).state.running
      = false :=
  ⟨rfl, rfl, by decide, rfl⟩

/-- Claim C2, amended: with the disabled sentinel the running runtime does
transition to stopped and nothing is added, but no job is deregistered: the
handler returns before the diff, so `removedIds` is empty and the observed
job records remain in the persistent store untouched. -/
theorem C2_amended : ∀ (nextFire : TriggerDescriptor → Option Int) (d : Nat) (st : SchedState),
    setup_jobs nextFire d SchedulesEntry.disabled st
      = ⟨⟨false, st.jobs⟩, [], []⟩ :=
  fun _ _ _ => rfl

/-- Claim C8: every timezone-resolution failure — the ambiguous `'local'`
placeholder, `pytz.UnknownTimeZoneError`, or a low-level `struct.error` —
falls back to UTC, emits a log note, and still constructs the scheduler
runtime. -/
theorem C8_tz_fallback (r : TzResult)
    (h : r = TzResult.ok "local" ∨ r = TzResult.unknownTZError ∨
         ∃ m, r = TzResult.structFailure m) :
    setup_scheduler_tz r = ⟨"UTC", true, true⟩ := by
  rcases h with h | h | ⟨m, h⟩ <;> subst h <;> rfl

/-- Claim C8, witness: the `UnknownTimeZoneError` case concretely. -/
theorem C8_tz_fallback_witness :
    setup_scheduler_tz TzResult.unknownTZError = ⟨"UTC", true, true⟩ :=
  C8_tz_fallback TzResult.unknownTZError (Or.inr (Or.inl rfl))

/-- Claim C10: `DELETE /schedules/<id>/` answers with status 400 both when
the id is unknown (error body) and when the deletion succeeds (confirmation
body), so the status code alone cannot distinguish success from client
error. -/
theorem C10_delete_status : ∀ (xs : List ConfigObj) (sid : Nat),
    (delete_schedule true xs sid).snd.statusCode = some 400 ∧
    ((deleteFirst sid xs).isSome = true →
      (delete_schedule true xs sid).snd
        = Response.json (JValue.obj [("detail", JValue.str "deleted schedule")]) 400) ∧
    ((deleteFirst sid xs).isSome = false →
      (delete_schedule true xs sid).snd
        = Response.json (JValue.obj [("error", JValue.str "invalid schedule id")]) 400) := by
  intro xs sid
  unfold delete_schedule
  cases h : deleteFirst sid xs <;>
    simp [Response.statusCode]

/-- Claim C6, counterexample: with a live job matching the listed config
(id `"7"`, `nextRunTime` 42) present in the runtime, the List handler still
returns the config annotated with its id only — no `next_run_time` key
appears in the listed entry, because the handler never consults the
scheduler. -/
theorem C6_counterexample :
    (SchedState.jobs ⟨true, [sampleJob]⟩).find? (fun j => j.id == toString 7)
      = some sampleJob ∧
    sampleJob.nextRunTime = some 42 ∧
    schedules_get (SchedulesEntry.configs [⟨7, sampleContent⟩])
      = Response.json (JValue.obj [("schedules", JValue.arr
          [JValue.obj [("tasks", JValue.arr [JValue.str "tv"]),
                       ("interval", JValue.obj [("hours", JValue.num 2)]),
                       ("id", JValue.num 7)]])]) 200 ∧
    hasKey [("tasks", JValue.arr [JValue.str "tv"]),
            ("interval", JValue.obj [("hours", JValue.num 2)]),
            ("id", JValue.num 7)] "next_run_time" = false :=
  ⟨rfl, rfl, rfl, rfl⟩

/-- Claim C6, amended: List returns every config annotated with its id, and
nothing more — an entry gains no `next_run_time` key (unless the raw config
itself carried one); the `nextRunTime` annotation is produced only by the
single-schedule Get handler when a matching live job exists. -/
theorem C6_amended :
    (∀ (cs : List ConfigObj) (c : ConfigObj), c ∈ cs →
        ∃ entries : List JValue,
          schedules_get (SchedulesEntry.configs cs)
            = Response.json (JValue.obj [("schedules", JValue.arr entries)]) 200 ∧
          JValue.obj (setKey c.content.fieldsOf "id" (JValue.num (Int.ofNat c.addr)))
            ∈ entries) ∧
    (∀ c : ConfigObj, hasKey c.content.fieldsOf "next_run_time" = false →
        hasKey (setKey c.content.fieldsOf "id" (JValue.num (Int.ofNat c.addr)))
          "next_run_time" = false) ∧
    (∀ (st : SchedState) (xs : List ConfigObj) (sid : Nat) (sched : JValue) (j : Job),
        schedule_by_id xs sid = some sched →
        st.jobs.find? (fun j2 => j2.id == toString sid) = some j →
        get_schedule st xs sid
          = Response.json (JValue.obj [("schedule",
              JValue.obj (setKey sched.fieldsOf "next_run_time"
                (match j.nextRunTime with
                 | some t => JValue.num t
                 | none => JValue.null)))]) 200) := by
  refine ⟨?_, ?_, ?_⟩
  · intro cs c hc
    refine ⟨cs.map (fun c =>
      JValue.obj (setKey c.content.fieldsOf "id" (JValue.num (Int.ofNat c.addr)))), ?_, ?_⟩
    · cases cs with
      | nil => exact absurd hc (List.not_mem_nil c)
      | cons c0 cs0 => rfl
    · exact List.mem_map_of_mem _ hc
  · intro c h
    have hall := List.any_eq_false.mp h
    refine List.any_eq_false.mpr ?_
    intro p hp
    have hp2 : p ∈ c.content.fieldsOf ∧ ¬ p.1 = "id"
        ∨ p = ("id", JValue.num (Int.ofNat c.addr)) := by
      simpa [setKey] using hp
    rcases hp2 with ⟨hin, _⟩ | rfl
    · exact hall p hin
    · simp
  · intro st xs sid sched j h1 h2
    unfold get_schedule
    rw [h1]
    dsimp only
    rw [h2]

/-- Claim C7: the schema's exactly-one-trigger `oneOf` accepts a config
precisely when exactly one of `interval`/`schedule` is present (their
presence flags differ), and a config passing full item validation always
passed that check — both-present and neither-present configs are rejected. -/
theorem C7_exactly_one_trigger :
    ∀ fields : List (String × JValue),
      triggerOneOf fields = (hasKey fields "interval" != hasKey fields "schedule") ∧
      (itemValid (JValue.obj fields) = true → triggerOneOf fields = true) := by
  intro fields
  constructor
  · cases h1 : hasKey fields "interval" <;> cases h2 : hasKey fields "schedule" <;>
      simp [triggerOneOf, oneOfOk, h1, h2]
  · intro h
    simp only [itemValid, Bool.and_eq_true] at h
    exact h.2

/-- Claim C9: creating a schedule while the `schedules` key is absent or is
the disabled sentinel first resets the entry to an empty list, so the new
config ends up as the only schedule; the subsequent reconciliation sees it
as the desired list (not the sentinel) and schedules exactly that job. -/
theorem C9_create_reenables (a : Nat) (v : JValue) (entry : SchedulesEntry)
    (h : entry = SchedulesEntry.absent ∨ entry = SchedulesEntry.disabled) :
    (schedules_post true a entry v).fst = SchedulesEntry.configs [⟨a, v⟩] ∧
    configValue (schedules_post true a entry v).fst 0 = some [⟨a, v⟩] ∧
    (setup_jobs (fun _ => none) 0 (schedules_post true a entry v).fst
        ⟨false, []⟩).addedIds = [reconcilerJobId ⟨a, v⟩] := by
  have hfst : (schedules_post true a entry v).fst = SchedulesEntry.configs [⟨a, v⟩] := by
    rcases h with h | h <;> subst h <;>
      exact (schedules_post_list_spec true a [] v).1
  refine ⟨hfst, ?_, ?_⟩
  · rw [hfst]
    rfl
  · rw [hfst]
    rfl

/-- Claim C9, witness: creating over the disabled sentinel concretely. -/
theorem C9_create_reenables_witness :
    (schedules_post true 4 SchedulesEntry.disabled (JValue.obj [])).fst
      = SchedulesEntry.configs [⟨4, JValue.obj []⟩] ∧
    configValue (schedules_post true 4 SchedulesEntry.disabled (JValue.obj [])).fst 0
      = some [⟨4, JValue.obj []⟩] ∧
    (setup_jobs (fun _ => none) 0
        (schedules_post true 4 SchedulesEntry.disabled (JValue.obj [])).fst
        ⟨false, []⟩).addedIds = [reconcilerJobId ⟨4, JValue.obj []⟩] :=
  C9_create_reenables 4 (JValue.obj []) SchedulesEntry.disabled (Or.inr rfl)

/-- Claim C3: when the observed job ids already coincide with the identities
derived from the desired configs, reconciliation adds nothing, removes
nothing, and leaves every job record — in particular its `nextRunTime` —
exactly as it was. -/
theorem C3_reconcile_idempotent (nextFire : TriggerDescriptor → Option Int) (d : Nat)
    (cs : List ConfigObj) (st : SchedState)
    (h : ∀ i, i ∈ st.jobs.map Job.id ↔ i ∈ cs.map reconcilerJobId) :
    (setup_jobs nextFire d (SchedulesEntry.configs cs) st).addedIds = [] ∧
    (setup_jobs nextFire d (SchedulesEntry.configs cs) st).removedIds = [] ∧
    (setup_jobs nextFire d (SchedulesEntry.configs cs) st).state.jobs = st.jobs := by
  by_cases hcs : cs.isEmpty
  · simp [setup_jobs, configValue, hcs]
  · have hAdd : cs.filter (fun c => ! decide (reconcilerJobId c ∈ st.jobs.map Job.id)) = [] := by
      refine List.filter_eq_nil_iff.mpr ?_
      intro c hc
      have hmem : reconcilerJobId c ∈ cs.map reconcilerJobId := List.mem_map_of_mem _ hc
      simp [(h (reconcilerJobId c)).mpr hmem]
    have hRem : (st.jobs.map Job.id).filter (fun i => ! decide (i ∈ cs.map reconcilerJobId)) = [] := by
      refine List.filter_eq_nil_iff.mpr ?_
      intro i hi
      simp [(h i).mp hi]
    refine ⟨?_, ?_, ?_⟩ <;>
      · simp only [setup_jobs, configValue]
        rw [if_neg hcs]
        simp only [hAdd, hRem, List.map_nil, List.append_nil]
        try first
          | rfl
          | simp

/-- Claim C3, witness: one desired config at address 5 against an observed
store holding exactly the job with the derived id; nothing is added or
removed and the job record survives untouched. -/
theorem C3_reconcile_idempotent_witness :
    (setup_jobs (fun _ => none) 0
        (SchedulesEntry.configs [⟨5, defaultScheduleContent⟩])
        ⟨true, [⟨reconcilerJobId ⟨5, defaultScheduleContent⟩, "x",
                 TriggerDescriptor.interval (JValue.obj []), some 3⟩]⟩).addedIds = [] ∧
    (setup_jobs (fun _ => none) 0
        (SchedulesEntry.configs [⟨5, defaultScheduleContent⟩])
        ⟨true, [⟨reconcilerJobId ⟨5, defaultScheduleContent⟩, "x",
                 TriggerDescriptor.interval (JValue.obj []), some 3⟩]⟩).removedIds = [] ∧
    (setup_jobs (fun _ => none) 0
        (SchedulesEntry.configs [⟨5, defaultScheduleContent⟩])
        ⟨true, [⟨reconcilerJobId ⟨5, defaultScheduleContent⟩, "x",
                 TriggerDescriptor.interval (JValue.obj []), some 3⟩]⟩).state.jobs
      = [⟨reconcilerJobId ⟨5, defaultScheduleContent⟩, "x",
          TriggerDescriptor.interval (JValue.obj []), some 3⟩] :=
  C3_reconcile_idempotent (fun _ => none) 0 [⟨5, defaultScheduleContent⟩]
    ⟨true, [⟨reconcilerJobId ⟨5, defaultScheduleContent⟩, "x",
             TriggerDescriptor.interval (JValue.obj []), some 3⟩]⟩
    (fun _ => Iff.rfl)

end Scheduler
